import Mathlib

/-!
Shallow embedding of the signal-to-pixel rendering pipeline of the audio
visualizer (src/visualizer.js, Stage-3 variant: the class that owns
getVisualData / getColor / drawWaveform / drawParticles / animate).

JavaScript numbers are embedded as exact rationals; byte samples as
naturals. Uint8Array element stores truncate toward zero and send NaN to
zero, which the embedding reflects with natural-number floor division and
an explicit out-of-range fallback.
-/

set_option maxRecDepth 8000

namespace Visualizer

/-- A concrete color value as produced by the color mapper: either an
hsl(...) string (hue, saturation percent, lightness percent) or an
rgb(...) string (three channels). -/
inductive Color where
  | hsl (h s l : ℚ)
  | rgb (r g b : ℚ)
deriving DecidableEq

/-- The color scheme selector read from the colorScheme control.
The catch-all value stands for any string not matched by the switch,
which takes the default branch. -/
inductive ColorScheme where
  | rainbow
  | fire
  | ocean
  | neon
  | purple
  | other
deriving DecidableEq

/-- The render mode selector read from the visualMode control. -/
inductive RenderMode where
  | bars
  | circular
  | waveform
  | particles
deriving DecidableEq

/-- One particle of drawParticles: position, velocity, radius, color
and normalized remaining life. -/
structure Particle where
  x : ℚ
  y : ℚ
  vx : ℚ
  vy : ℚ
  size : ℚ
  color : Color
  life : ℚ
deriving DecidableEq

/-- The mutable fields of the AudioVisualizer object that the rendering
pipeline reads and writes: the raw analyser buffer this.dataArray, the
reducer cache this.currentVisualData (undefined until getVisualData first
runs, hence an Option), the particle pool this.particles, and the canvas
geometry. -/
structure VizState where
  dataArray : List ℕ
  currentVisualData : Option (List ℕ)
  particles : List Particle
  width : ℚ
  height : ℚ
deriving DecidableEq

/-- getVisualData's target length: const sampleSize = 128. -/
def sampleSize : ℕ := 128

/-- Embedding of getVisualData. For each i < 128 the source computes
binIndex = Math.floor((i / sampleSize) * (bufferLength / 2)); since both
float divisions are exact, this is the natural floor i*M/(2*128). The
source then stores Math.min(255, dataArray[binIndex] * 1.5) into a
Uint8Array slot: the store truncates toward zero, so an in-range byte v
yields min 255 (3*v/2) under floor division; an out-of-range binIndex
yields undefined, undefined * 1.5 is NaN, and storing NaN gives 0.
bufferLength always equals dataArray.length in the source (both come from
the analyser's frequencyBinCount), so the embedding takes one list. -/
def getVisualData (dataArray : List ℕ) : List ℕ :=
  (List.range sampleSize).map fun i =>
    let binIndex := i * dataArray.length / (2 * sampleSize)
    match dataArray[binIndex]? with
    | some v => min 255 (3 * v / 2)
    | none => 0

/-- The sample value getColor reads for an index:
(this.currentVisualData || this.dataArray)[index] || 0. A JS undefined
lookup and a stored 0 both give 0, hence getD with default 0. An empty
cached array is truthy in JS, which the Option models: only a never-set
cache (none) falls back to dataArray. -/
def sampleAt (st : VizState) (index : ℕ) : ℕ :=
  (st.currentVisualData.getD st.dataArray).getD index 0

/-- Embedding of getColor. The scheme comes from the colorScheme DOM
control, passed here as a parameter; the sample value comes from the
state via sampleAt. -/
def getColor (st : VizState) (scheme : ColorScheme) (index total : ℕ) : Color :=
  let hue : ℚ := ((index : ℚ) / (total : ℚ)) * 360
  let intensity : ℚ := ((sampleAt st index : ℕ) : ℚ) / 255
  match scheme with
  | .rainbow => .hsl hue 100 (60 + intensity * 40)
  | .fire => .hsl (0 + 60 * intensity) 100 (50 + intensity * 40)
  | .ocean => .hsl (180 + 60 * intensity) 90 (50 + intensity * 40)
  | .neon =>
      [Color.rgb (255 * intensity) 0 (255 * intensity),
       Color.rgb 0 (255 * intensity) (255 * intensity),
       Color.rgb (255 * intensity) (255 * intensity) 0].getD (index % 3) (.rgb 0 0 0)
  | .purple => .hsl (270 + intensity * 60) 90 (50 + intensity * 40)
  | .other => .hsl hue 100 50

/-- Modelled from the spec: the pure color mapper
colorFor(index, total, sampleValue, scheme) of section 4.2, written from
the spec's own formulas, to be compared against the source's getColor
(which reads its sample value from the internal cache). -/
def colorFor (index total sampleValue : ℕ) (scheme : ColorScheme) : Color :=
  let intensity : ℚ := (sampleValue : ℚ) / 255
  match scheme with
  | .rainbow => .hsl (360 * ((index : ℚ) / (total : ℚ))) 100 (60 + 40 * intensity)
  | .fire => .hsl (60 * intensity) 100 (50 + 40 * intensity)
  | .ocean => .hsl (180 + 60 * intensity) 90 (50 + 40 * intensity)
  | .neon =>
      [Color.rgb (255 * intensity) 0 (255 * intensity),
       Color.rgb 0 (255 * intensity) (255 * intensity),
       Color.rgb (255 * intensity) (255 * intensity) 0].getD (index % 3) (.rgb 0 0 0)
  | .purple => .hsl (270 + 60 * intensity) 90 (50 + 40 * intensity)
  | .other => .hsl (360 * ((index : ℚ) / (total : ℚ))) 100 50

/-- One physics step of drawParticles on one particle:
p.x += p.vx; p.y += p.vy; p.vy += 0.1; p.life -= 0.01. The y update uses
the velocity from before the gravity increment, as in the source. -/
def updateParticle (p : Particle) : Particle :=
  { p with
    x := p.x + p.vx
    y := p.y + p.vy
    vy := p.vy + 1 / 10
    life := p.life - 1 / 100 }

/-- The culling test of drawParticles, after the update: a particle is
kept unless p.life <= 0 or p.y > canvas.height. -/
def particleAlive (height : ℚ) (p : Particle) : Bool :=
  !(decide (p.life ≤ 0) || decide (p.y > height))

/-- The effect of one drawParticles call on this.particles. The source
first checks this.particles.length < 100 once, then loops three times,
each iteration pushing a fresh particle only when a randomly sampled
value exceeds the spawn threshold; the randomness is abstracted as the
oracle list spawns of the particles actually pushed (so spawns has
length at most 3 in any real run). It then walks the array backward,
updates every particle in place and splices out the dead ones, which is
the same as mapping the update and filtering the survivors in order. -/
def drawParticlesPool (height : ℚ) (spawns : List Particle)
    (pool : List Particle) : List Particle :=
  let pool1 := if pool.length < 100 then pool ++ spawns else pool
  (pool1.map updateParticle).filter (particleAlive height)

/-- A sequence of drawParticles ticks, one oracle spawn list per tick. -/
def runParticleTicks (height : ℚ) (spawnss : List (List Particle))
    (pool : List Particle) : List Particle :=
  spawnss.foldl (fun acc s => drawParticlesPool height s acc) pool

/-- The main polyline of drawWaveform: for each i,
x = i * (canvas.width / bufferLength) and y = (dataArray[i]/128.0) *
canvas.height / 2. drawWaveform reads this.dataArray directly (not the
reducer output). -/
def drawWaveformPoints (width height : ℚ) (dataArray : List ℕ) : List (ℚ × ℚ) :=
  let sliceWidth := width / (dataArray.length : ℚ)
  (List.range dataArray.length).map fun i =>
    let v : ℚ := ((dataArray.getD i 0 : ℕ) : ℚ) / 128
    ((i : ℚ) * sliceWidth, v * height / 2)

/-- The state effect of one animate tick: the analyser refills
this.dataArray (time-domain for waveform, frequency-domain otherwise;
either way an external input, newData), then the switch dispatches one
strategy. drawBars, drawCircular and drawParticles call getVisualData,
which caches its output in this.currentVisualData; drawWaveform does
not. Only drawParticles touches this.particles. -/
def animateTick (st : VizState) (mode : RenderMode) (newData : List ℕ)
    (spawns : List Particle) : VizState :=
  let st1 := { st with dataArray := newData }
  match mode with
  | .bars => { st1 with currentVisualData := some (getVisualData st1.dataArray) }
  | .circular => { st1 with currentVisualData := some (getVisualData st1.dataArray) }
  | .waveform => st1
  | .particles =>
      let st2 := { st1 with currentVisualData := some (getVisualData st1.dataArray) }
      { st2 with particles := drawParticlesPool st2.height spawns st2.particles }

/-- The events the pipeline state reacts to: an animate tick, or the
change listener on the visualMode control, whose handler runs
this.particles = [] (the mode value itself lives in the DOM). -/
inductive VizEvent where
  | tick (mode : RenderMode) (newData : List ℕ) (spawns : List Particle)
  | changeMode
deriving DecidableEq

/-- Step one event. -/
def stepEvent (st : VizState) (e : VizEvent) : VizState :=
  match e with
  | .tick m d sp => animateTick st m d sp
  | .changeMode => { st with particles := [] }

/-- Run a sequence of events. -/
def runEvents (st : VizState) (es : List VizEvent) : VizState :=
  es.foldl stepEvent st

/-- Whether an event is a tick that runs the particle-field strategy. -/
def isParticleTick : VizEvent → Bool
  | .tick .particles _ _ => true
  | _ => false

/-- A concrete spawnable particle: every field is inside the ranges the
drawParticles spawn code can draw (x in [0, width], y = canvas height,
vx in [-2, 2], vy in (-8, -3], size in [2, 6), life = 1). -/
def cexSpawn : Particle :=
  { x := 0, y := 400, vx := 0, vy := -7, size := 2
    color := Color.hsl 0 100 50, life := 1 }

/-! ### Helper lemmas -/

lemma getVisualData_length (frame : List ℕ) : (getVisualData frame).length = 128 := by
  simp [getVisualData, sampleSize]

lemma getVisualData_getD (frame : List ℕ) (i : ℕ) (hi : i < 128)
    (hlen : 0 < frame.length) :
    (getVisualData frame).getD i 0
      = min 255 (3 * frame.getD (i * frame.length / 256) 0 / 2) := by
  have hbin : i * frame.length / 256 < frame.length :=
    Nat.div_lt_of_lt_mul (mul_lt_mul_of_pos_right (by omega : i < 256) hlen)
  rw [List.getD_eq_getElem?_getD]
  simp only [getVisualData, sampleSize]
  rw [List.getElem?_map, List.getElem?_range hi]
  have hm : (2 : ℕ) * 128 = 256 := by norm_num
  rw [hm]
  simp only [Option.map_some', Option.getD_some]
  rw [List.getElem?_eq_getElem hbin, List.getD_eq_getElem frame 0 hbin]

/-! ### C4 -/

/-- C4: with a missing or zero-length raw sample frame, getVisualData
returns the all-zero array of length 128 (each undefined lookup gives
NaN after amplification, which the Uint8Array store turns into 0), and
being a total function it raises nothing. -/
theorem getVisualData_empty_frame :
    getVisualData [] = List.replicate 128 0 := by decide

/-! ### C1 -/

/-- C1 counterexample: on the frame [1, 0] (length 2) the stored byte at
index 0 is 1, but the claimed value min(255, frame[floor(0/128 * 2/2)] *
1.5) = 1.5; the Uint8Array store truncates, so the claim as stated fails
on every odd sample value below 170. -/
theorem getVisualData_claim_cex :
    2 ≤ ([1, 0] : List ℕ).length ∧
    ¬ (((getVisualData [1, 0]).getD 0 0 : ℚ)
        = min 255 (((([1, 0] : List ℕ).getD (0 * 2 / 256) 0 : ℕ) : ℚ) * (3 / 2))) := by
  refine ⟨by decide, ?_⟩
  have h1 : (getVisualData [1, 0]).getD 0 0 = 1 := by decide
  have h2 : ([1, 0] : List ℕ).getD (0 * 2 / 256) 0 = 1 := by decide
  rw [h1, h2]
  rw [min_eq_right (by norm_num : ((1 : ℕ) : ℚ) * (3 / 2) ≤ 255)]
  norm_num

/-- C1 amended: for every frame of length M at least 2, getVisualData
returns exactly 128 bytes, and element i is the truncation of
min(255, frame[floor(i/128 * M/2)] * 1.5), that is
min 255 (3 * frame[i*M/256] / 2) under natural floor division (so in
particular every element lies in [0, 255]). -/
theorem getVisualData_amended (frame : List ℕ) (h : 2 ≤ frame.length) :
    (getVisualData frame).length = 128 ∧
    ∀ i, i < 128 →
      (getVisualData frame).getD i 0
        = min 255 (3 * frame.getD (i * frame.length / 256) 0 / 2) ∧
      (getVisualData frame).getD i 0 ≤ 255 := by
  refine ⟨getVisualData_length frame, fun i hi => ?_⟩
  have h0 : 0 < frame.length := by omega
  rw [getVisualData_getD frame i hi h0]
  exact ⟨rfl, min_le_left _ _⟩

/-- Witness for C1 amended at frame [1, 0], index 5. -/
theorem getVisualData_amended_witness :
    2 ≤ ([1, 0] : List ℕ).length ∧
    (getVisualData [1, 0]).getD 5 0
      = min 255 (3 * ([1, 0] : List ℕ).getD (5 * 2 / 256) 0 / 2) :=
  ⟨by decide, ((getVisualData_amended [1, 0] (by decide)).2 5 (by decide)).1⟩

/-! ### Color mapper -/

/-- The internal cache influences getColor only through the one sample
value it looks up: getColor equals the spec's explicit-parameter
colorFor at that value. -/
lemma getColor_eq_colorFor (st : VizState) (scheme : ColorScheme) (index total : ℕ) :
    getColor st scheme index total
      = colorFor index total (sampleAt st index) scheme := by
  cases scheme <;>
    simp [getColor, colorFor, Color.hsl.injEq, mul_comm]

/-- C3: getColor is a pure, deterministic function of
(index, total, sampleValue, scheme): two states whose effective sample
value at the index agree give the same color, and reading the internal
cache gives the same result as passing the sample value explicitly to
the spec's colorFor. -/
theorem getColor_pure (st₁ st₂ : VizState) (scheme : ColorScheme) (index total : ℕ)
    (h : sampleAt st₁ index = sampleAt st₂ index) :
    getColor st₁ scheme index total = getColor st₂ scheme index total ∧
    getColor st₁ scheme index total
      = colorFor index total (sampleAt st₁ index) scheme := by
  refine ⟨?_, getColor_eq_colorFor st₁ scheme index total⟩
  rw [getColor_eq_colorFor, getColor_eq_colorFor, h]

/-- Witness for C3: one state with no cache, one with a cache, agreeing
on the sample at index 0. -/
theorem getColor_pure_witness :
    sampleAt ⟨[7], none, [], 1000, 400⟩ 0
      = sampleAt ⟨[9], some [7, 3], [], 1000, 400⟩ 0 ∧
    getColor ⟨[7], none, [], 1000, 400⟩ ColorScheme.rainbow 0 8
      = getColor ⟨[9], some [7, 3], [], 1000, 400⟩ ColorScheme.rainbow 0 8 :=
  ⟨by decide, (getColor_pure _ _ ColorScheme.rainbow 0 8 (by decide)).1⟩

/-- C9: for an index at or beyond the end of the current sample data,
getColor raises nothing (it is a total function) and the lookup falls
back to sample value 0: the result is the color the pure mapper gives
for sample value 0 at that same index, total and scheme. -/
theorem getColor_out_of_range (st : VizState) (scheme : ColorScheme) (index total : ℕ)
    (h : (st.currentVisualData.getD st.dataArray).length ≤ index) :
    getColor st scheme index total = colorFor index total 0 scheme := by
  have hs : sampleAt st index = 0 := List.getD_eq_default _ _ h
  rw [getColor_eq_colorFor, hs]

/-- Witness for C9: index 512 into a 128-element visual array, as the
waveform gradient does. -/
theorem getColor_out_of_range_witness :
    ((⟨[], some (List.replicate 128 5), [], 1000, 400⟩ : VizState).currentVisualData.getD
        (⟨[], some (List.replicate 128 5), [], 1000, 400⟩ : VizState).dataArray).length ≤ 512 ∧
    getColor ⟨[], some (List.replicate 128 5), [], 1000, 400⟩ ColorScheme.rainbow 512 1024
      = colorFor 512 1024 0 ColorScheme.rainbow :=
  ⟨by decide, getColor_out_of_range _ ColorScheme.rainbow 512 1024 (by decide)⟩

/-- C8: a frequency frame with 255 at index 0 and zeros elsewhere, after
the reducer has run and cached its output, makes the fire scheme return
hue 60 and lightness 90 (saturation 100) for index 0. -/
theorem fire_scheme_scenario (rest : List ℕ) (h : ∀ v ∈ rest, v = 0) :
    getColor ⟨255 :: rest, some (getVisualData (255 :: rest)), [], 1000, 400⟩
        ColorScheme.fire 0 128
      = Color.hsl 60 100 90 := by
  have hs : sampleAt
      ⟨255 :: rest, some (getVisualData (255 :: rest)), [], 1000, 400⟩ 0 = 255 := by
    show (getVisualData (255 :: rest)).getD 0 0 = 255
    rw [getVisualData_getD (255 :: rest) 0 (by norm_num) (by simp)]
    rw [Nat.zero_mul, Nat.zero_div, List.getD_cons_zero]
    rfl
  rw [getColor_eq_colorFor, hs]
  simp only [colorFor]
  norm_num

/-- Witness for C8 at the concrete frame 255 followed by 127 zeros. -/
theorem fire_scheme_scenario_witness :
    (∀ v ∈ List.replicate 127 0, v = 0) ∧
    getColor ⟨255 :: List.replicate 127 0,
        some (getVisualData (255 :: List.replicate 127 0)), [], 1000, 400⟩
        ColorScheme.fire 0 128
      = Color.hsl 60 100 90 :=
  ⟨fun v hv => List.eq_of_mem_replicate hv,
   fire_scheme_scenario (List.replicate 127 0) (fun v hv => List.eq_of_mem_replicate hv)⟩

/-! ### Particle helper lemmas -/

lemma particleAlive_iff (height : ℚ) (p : Particle) :
    particleAlive height p = true ↔ 0 < p.life ∧ p.y ≤ height := by
  simp [particleAlive, not_or, not_le, not_lt, and_comm]

lemma updateParticle_life (p : Particle) :
    (updateParticle p).life = p.life - 1 / 100 := rfl

lemma updateParticle_iter_life (p : Particle) (k : ℕ) :
    (updateParticle^[k] p).life = p.life - k / 100 := by
  induction k with
  | zero => simp
  | succ n ih =>
      rw [Function.iterate_succ_apply', updateParticle_life, ih]
      push_cast
      ring

lemma updateParticle_iter_vy (p : Particle) (k : ℕ) :
    (updateParticle^[k] p).vy = p.vy + k / 10 := by
  induction k with
  | zero => simp
  | succ n ih =>
      rw [Function.iterate_succ_apply']
      show (updateParticle^[n] p).vy + 1 / 10 = _
      rw [ih]
      push_cast
      ring

lemma updateParticle_iter_y (p : Particle) (k : ℕ) :
    (updateParticle^[k] p).y = p.y + k * p.vy + k * (k - 1) / 20 := by
  induction k with
  | zero => simp
  | succ n ih =>
      rw [Function.iterate_succ_apply']
      show (updateParticle^[n] p).y + (updateParticle^[n] p).vy = _
      rw [ih, updateParticle_iter_vy]
      push_cast
      ring

lemma updateParticle_iter_y_le (p : Particle) (k : ℕ)
    (hy : p.y = 400) (hvy : p.vy = -7) (hk : k ≤ 141) :
    (updateParticle^[k] p).y ≤ 400 := by
  rw [updateParticle_iter_y, hy, hvy]
  have hk1 : (k : ℚ) ≤ 141 := by exact_mod_cast hk
  have hk0 : (0 : ℚ) ≤ (k : ℚ) := Nat.cast_nonneg k
  nlinarith [mul_nonneg hk0 (show (0 : ℚ) ≤ 141 - (k : ℚ) by linarith)]

lemma cexSpawn_alive (j : ℕ) (h1 : 1 ≤ j) (h99 : j ≤ 99) :
    particleAlive 400 (updateParticle^[j] cexSpawn) = true := by
  rw [particleAlive_iff]
  constructor
  · rw [updateParticle_iter_life]
    have hj : (j : ℚ) ≤ 99 := by exact_mod_cast h99
    have : cexSpawn.life = 1 := rfl
    rw [this]
    linarith
  · exact updateParticle_iter_y_le cexSpawn j rfl rfl (by omega)

lemma drawParticlesPool_singleton_alive (height : ℚ) (q : Particle)
    (h : particleAlive height (updateParticle q) = true) :
    drawParticlesPool height [] [q] = [updateParticle q] := by
  simp [drawParticlesPool, List.filter_cons, h]

lemma drawParticlesPool_singleton_dead (height : ℚ) (q : Particle)
    (h : particleAlive height (updateParticle q) = false) :
    drawParticlesPool height [] [q] = [] := by
  simp [drawParticlesPool, List.filter_cons, h]

lemma particleAlive_false_of_life (height : ℚ) (q : Particle) (h : q.life ≤ 0) :
    particleAlive height q = false := by
  unfold particleAlive
  rw [decide_eq_true h]
  simp

lemma runParticleTicks_singleton (height : ℚ) :
    ∀ (k : ℕ) (p : Particle),
    (∀ j, 1 ≤ j → j ≤ k → particleAlive height (updateParticle^[j] p) = true) →
    runParticleTicks height (List.replicate k []) [p] = [updateParticle^[k] p] := by
  intro k
  induction k with
  | zero => intro p _; simp [runParticleTicks]
  | succ n ih =>
      intro p hall
      have h1 : particleAlive height (updateParticle p) = true := by
        simpa using hall 1 (by omega) (by omega)
      have hstep : runParticleTicks height (List.replicate (n + 1) []) [p]
          = runParticleTicks height (List.replicate n [])
              (drawParticlesPool height [] [p]) := by
        rw [List.replicate_succ]
        rfl
      rw [hstep, drawParticlesPool_singleton_alive height p h1]
      rw [ih (updateParticle p) (fun j hj1 hjn => by
        have := hall (j + 1) (by omega) (by omega)
        rwa [Function.iterate_succ_apply] at this)]
      rw [← Function.iterate_succ_apply]

lemma runParticleTicks_snoc (height : ℚ) (spawnss : List (List Particle))
    (s : List Particle) (pool : List Particle) :
    runParticleTicks height (spawnss ++ [s]) pool
      = drawParticlesPool height s (runParticleTicks height spawnss pool) := by
  unfold runParticleTicks
  rw [List.foldl_append]
  rfl

lemma drawParticlesPool_length_le (height : ℚ) (spawns pool : List Particle)
    (hs : spawns.length ≤ 3) (hp : pool.length ≤ 102) :
    (drawParticlesPool height spawns pool).length ≤ 102 := by
  unfold drawParticlesPool
  have h1 : (if pool.length < 100 then pool ++ spawns else pool).length ≤ 102 := by
    split
    · rw [List.length_append]; omega
    · omega
  refine le_trans (le_trans (List.length_filter_le _ _) ?_) h1
  rw [List.length_map]

lemma runParticleTicks_length_le (height : ℚ) :
    ∀ (spawnss : List (List Particle)) (pool : List Particle),
    (∀ s ∈ spawnss, s.length ≤ 3) → pool.length ≤ 102 →
    (runParticleTicks height spawnss pool).length ≤ 102 := by
  intro spawnss
  induction spawnss with
  | nil => intro pool _ hp; simpa [runParticleTicks] using hp
  | cons s ss ih =>
      intro pool h hp
      have hstep : runParticleTicks height (s :: ss) pool
          = runParticleTicks height ss (drawParticlesPool height s pool) := rfl
      rw [hstep]
      exact ih _ (fun t ht => h t (List.mem_cons_of_mem _ ht))
        (drawParticlesPool_length_le height s pool (h s (List.mem_cons_self _ _)) hp)

lemma cexSpawn_run : ∀ k : ℕ, k ≤ 34 →
    (runParticleTicks 400 (List.replicate k (List.replicate 3 cexSpawn)) []).length
        = 3 * k ∧
    ∀ p ∈ runParticleTicks 400 (List.replicate k (List.replicate 3 cexSpawn)) [],
      ∃ j, 1 ≤ j ∧ j ≤ k ∧ p = updateParticle^[j] cexSpawn := by
  intro k
  induction k with
  | zero => intro _; exact ⟨rfl, by simp [runParticleTicks]⟩
  | succ k ih =>
      intro hk
      obtain ⟨hlen, hmem⟩ := ih (by omega)
      have hstep : runParticleTicks 400
            (List.replicate (k + 1) (List.replicate 3 cexSpawn)) []
          = drawParticlesPool 400 (List.replicate 3 cexSpawn)
              (runParticleTicks 400 (List.replicate k (List.replicate 3 cexSpawn)) []) := by
        rw [List.replicate_succ']
        unfold runParticleTicks
        rw [List.foldl_append]
        rfl
      set L := runParticleTicks 400 (List.replicate k (List.replicate 3 cexSpawn)) []
        with hLdef
      have hgate : L.length < 100 := by rw [hlen]; omega
      have halive : ∀ a ∈ (L ++ List.replicate 3 cexSpawn).map updateParticle,
          particleAlive 400 a = true := by
        intro a ha
        rw [List.mem_map] at ha
        obtain ⟨q, hq, rfl⟩ := ha
        rcases List.mem_append.mp hq with hq | hq
        · obtain ⟨j, hj1, hjk, rfl⟩ := hmem q hq
          have hiter : updateParticle (updateParticle^[j] cexSpawn)
              = updateParticle^[j + 1] cexSpawn :=
            (Function.iterate_succ_apply' updateParticle j cexSpawn).symm
          rw [hiter]
          exact cexSpawn_alive (j + 1) (by omega) (by omega)
        · rw [List.eq_of_mem_replicate hq]
          exact cexSpawn_alive 1 (by omega) (by omega)
      have hpool : drawParticlesPool 400 (List.replicate 3 cexSpawn) L
          = (L ++ List.replicate 3 cexSpawn).map updateParticle := by
        unfold drawParticlesPool
        rw [if_pos hgate]
        exact List.filter_eq_self.mpr halive
      refine ⟨?_, ?_⟩
      · rw [hstep, hpool, List.length_map, List.length_append, hlen]
        simp
        omega
      · intro p hp
        rw [hstep, hpool, List.mem_map] at hp
        obtain ⟨q, hq, rfl⟩ := hp
        rcases List.mem_append.mp hq with hq | hq
        · obtain ⟨j, hj1, hjk, rfl⟩ := hmem q hq
          exact ⟨j + 1, by omega, by omega, (Function.iterate_succ_apply' _ _ _).symm⟩
        · rw [List.eq_of_mem_replicate hq]
          exact ⟨1, by omega, by omega, rfl⟩

/-! ### C2 -/

/-- C2 counterexample: 34 ticks of the particle-field strategy from the
empty pool, each pushing 3 spawnable particles, leave 102 particles in
the pool. The spawn gate tests this.particles.length < 100 once before
pushing up to 3 particles, so a pool of 99 grows to 102 before culling,
and nothing dies in the first 34 ticks. -/
theorem particle_cap_claim_cex :
    (∀ s ∈ List.replicate 34 (List.replicate 3 cexSpawn), s.length ≤ 3) ∧
    (∀ s ∈ List.replicate 34 (List.replicate 3 cexSpawn), ∀ p ∈ s,
      p.y = 400 ∧ p.life = 1 ∧ -8 < p.vy ∧ p.vy ≤ -3 ∧
      -2 ≤ p.vx ∧ p.vx ≤ 2 ∧ 2 ≤ p.size ∧ p.size < 6) ∧
    100 < (runParticleTicks 400
      (List.replicate 34 (List.replicate 3 cexSpawn)) []).length := by
  refine ⟨?_, ?_, ?_⟩
  · intro s hs
    rw [List.eq_of_mem_replicate hs]
    simp
  · intro s hs p hp
    rw [List.eq_of_mem_replicate hs] at hp
    rw [List.eq_of_mem_replicate hp]
    refine ⟨rfl, rfl, by norm_num [cexSpawn], by norm_num [cexSpawn],
      by norm_num [cexSpawn], by norm_num [cexSpawn],
      by norm_num [cexSpawn], by norm_num [cexSpawn]⟩
  · rw [(cexSpawn_run 34 (le_refl 34)).1]
    omega

/-- C2 amended: with spawn lists of at most 3 particles per tick (as the
source's three-iteration spawn loop produces), the pool that starts
empty never exceeds 102 particles after any sequence of drawParticles
ticks; the gate at length < 100 plus up to 3 pushes makes 102, not 100,
the tight bound. -/
theorem particle_cap_102 (height : ℚ) (spawnss : List (List Particle))
    (h : ∀ s ∈ spawnss, s.length ≤ 3) :
    (runParticleTicks height spawnss []).length ≤ 102 :=
  runParticleTicks_length_le height spawnss [] h (by simp)

/-- Witness for C2 amended: one tick with one spawned particle. -/
theorem particle_cap_102_witness :
    (∀ s ∈ [[cexSpawn]], s.length ≤ 3) ∧
    (runParticleTicks 400 [[cexSpawn]] []).length ≤ 102 :=
  ⟨fun s hs => by rw [List.mem_singleton.mp hs]; simp,
   particle_cap_102 400 [[cexSpawn]]
     (fun s hs => by rw [List.mem_singleton.mp hs]; simp)⟩

/-! ### C5 -/

/-- C5: each drawParticles tick decreases a particle's life by exactly
0.01, and a particle that starts at life 1.0 and whose y never exceeds
the surface height survives ticks 1 through 99 of the pool and is
removed by the cull on tick 100. -/
theorem particle_life_decay (p : Particle) (height : ℚ)
    (hlife : p.life = 1)
    (hy : ∀ k, k ≤ 100 → (updateParticle^[k] p).y ≤ height) :
    (∀ q : Particle, (updateParticle q).life = q.life - 1 / 100) ∧
    (∀ k, 1 ≤ k → k ≤ 99 →
      runParticleTicks height (List.replicate k []) [p]
        = [updateParticle^[k] p]) ∧
    runParticleTicks height (List.replicate 100 []) [p] = [] := by
  have halive : ∀ j, 1 ≤ j → j ≤ 99 →
      particleAlive height (updateParticle^[j] p) = true := by
    intro j h1 h99
    rw [particleAlive_iff]
    refine ⟨?_, hy j (by omega)⟩
    rw [updateParticle_iter_life, hlife]
    have hj : (j : ℚ) ≤ 99 := by exact_mod_cast h99
    linarith
  refine ⟨fun q => rfl,
    fun k h1 h99 => runParticleTicks_singleton height k p
      (fun j hj1 hjk => halive j hj1 (by omega)), ?_⟩
  have h99run : runParticleTicks height (List.replicate 99 []) [p]
      = [updateParticle^[99] p] :=
    runParticleTicks_singleton height 99 p (fun j hj1 hj99 => halive j hj1 hj99)
  have hsplit : runParticleTicks height (List.replicate 100 []) [p]
      = drawParticlesPool height []
          (runParticleTicks height (List.replicate 99 []) [p]) := by
    have hr : (List.replicate 100 ([] : List Particle))
        = List.replicate 99 [] ++ [[]] := List.replicate_succ' 99 ([] : List Particle)
    rw [hr]
    exact runParticleTicks_snoc height (List.replicate 99 []) [] [p]
  rw [hsplit, h99run]
  apply drawParticlesPool_singleton_dead
  have hiter : updateParticle (updateParticle^[99] p) = updateParticle^[100] p :=
    (Function.iterate_succ_apply' updateParticle 99 p).symm
  rw [hiter]
  have hl : (updateParticle^[100] p).life = 0 := by
    rw [updateParticle_iter_life, hlife]
    norm_num
  exact particleAlive_false_of_life height _ (le_of_eq hl)

/-- Witness for C5: the concrete particle at x = 0, y = 400, vx = 0,
vy = -7, size 2, life 1, on a surface of height 400. -/
theorem particle_life_decay_witness :
    ((⟨0, 400, 0, -7, 2, Color.hsl 0 100 50, 1⟩ : Particle).life = 1) ∧
    runParticleTicks 400 (List.replicate 100 [])
      [(⟨0, 400, 0, -7, 2, Color.hsl 0 100 50, 1⟩ : Particle)] = [] :=
  ⟨rfl, (particle_life_decay ⟨0, 400, 0, -7, 2, Color.hsl 0 100 50, 1⟩ 400 rfl
    (fun k hk => updateParticle_iter_y_le _ k rfl rfl (by omega))).2.2⟩

/-! ### C10 -/

/-- C10: a tick whose selected mode is bars, circular or waveform leaves
this.particles exactly as it was: only the particle-field branch of the
animate dispatch mutates the pool. -/
theorem non_particle_tick_pool (st : VizState) (mode : RenderMode)
    (newData : List ℕ) (spawns : List Particle)
    (h : mode = RenderMode.bars ∨ mode = RenderMode.circular ∨
      mode = RenderMode.waveform) :
    (animateTick st mode newData spawns).particles = st.particles := by
  rcases h with h | h | h <;> subst h <;> rfl

/-- Witness for C10: a bars tick over a state with one pooled particle. -/
theorem non_particle_tick_pool_witness :
    (RenderMode.bars = RenderMode.bars ∨ RenderMode.bars = RenderMode.circular ∨
      RenderMode.bars = RenderMode.waveform) ∧
    (animateTick ⟨[9], none, [⟨0, 400, 0, -7, 2, Color.hsl 0 100 50, 1⟩], 1000, 400⟩
        RenderMode.bars [5] []).particles
      = (⟨[9], none, [⟨0, 400, 0, -7, 2, Color.hsl 0 100 50, 1⟩], 1000, 400⟩
          : VizState).particles :=
  ⟨Or.inl rfl, non_particle_tick_pool _ RenderMode.bars [5] [] (Or.inl rfl)⟩

/-! ### C6 -/

lemma stepEvent_particles_nil (st : VizState) (e : VizEvent)
    (hst : st.particles = []) (he : isParticleTick e = false) :
    (stepEvent st e).particles = [] := by
  cases e with
  | changeMode => rfl
  | tick m d sp =>
      cases m with
      | particles => simp [isParticleTick] at he
      | bars => simpa [stepEvent, animateTick] using hst
      | circular => simpa [stepEvent, animateTick] using hst
      | waveform => simpa [stepEvent, animateTick] using hst

lemma runEvents_particles_nil : ∀ (es : List VizEvent) (st : VizState),
    st.particles = [] → (∀ e ∈ es, isParticleTick e = false) →
    (runEvents st es).particles = [] := by
  intro es
  induction es with
  | nil => intro st hst _; simpa [runEvents] using hst
  | cons e es ih =>
      intro st hst hes
      have hstep : runEvents st (e :: es) = runEvents (stepEvent st e) es := rfl
      rw [hstep]
      exact ih (stepEvent st e)
        (stepEvent_particles_nil st e hst (hes e (List.mem_cons_self _ _)))
        (fun x hx => hes x (List.mem_cons_of_mem _ hx))

/-- C6: when the visualMode change listener fires between ticks, the
pool is emptied, and it stays empty through any further events that are
not particle-field ticks; so at the start of the next particle-field
tick the pool has size 0 and no particle from before the switch is
still present. -/
theorem mode_change_clears_pool (st : VizState)
    (prior later : List VizEvent)
    (h : ∀ e ∈ later, isParticleTick e = false) :
    (runEvents st (prior ++ VizEvent.changeMode :: later)).particles = [] := by
  have hsplit : runEvents st (prior ++ VizEvent.changeMode :: later)
      = runEvents (stepEvent (runEvents st prior) VizEvent.changeMode) later := by
    unfold runEvents
    rw [List.foldl_append]
    rfl
  rw [hsplit]
  exact runEvents_particles_nil later _ rfl h

/-- Witness for C6: a pool with one particle, a mode change, then a bars
tick; the pool is empty when the next strategy runs. -/
theorem mode_change_clears_pool_witness :
    (∀ e ∈ [VizEvent.tick RenderMode.bars [] []], isParticleTick e = false) ∧
    (runEvents ⟨[9], none, [⟨0, 400, 0, -7, 2, Color.hsl 0 100 50, 1⟩], 1000, 400⟩
        ([] ++ VizEvent.changeMode :: [VizEvent.tick RenderMode.bars [] []])).particles
      = [] :=
  ⟨fun e he => by rw [List.mem_singleton.mp he]; rfl,
   mode_change_clears_pool _ [] [VizEvent.tick RenderMode.bars [] []]
     (fun e he => by rw [List.mem_singleton.mp he]; rfl)⟩

/-! ### C7 -/

/-- C7: on a time-domain frame whose samples all equal 128, every point
of drawWaveform's main polyline is at y = canvas.height / 2, with
x = i * (canvas.width / bufferLength). -/
theorem waveform_flat_centerline (frame : List ℕ) (width height : ℚ)
    (h : ∀ v ∈ frame, v = 128) :
    ∀ i, i < frame.length →
      (drawWaveformPoints width height frame).getD i (0, 0)
        = ((i : ℚ) * (width / (frame.length : ℚ)), height / 2) := by
  intro i hi
  rw [List.getD_eq_getElem?_getD]
  simp only [drawWaveformPoints]
  rw [List.getElem?_map, List.getElem?_range hi]
  simp only [Option.map_some', Option.getD_some]
  have hv : frame.getD i 0 = 128 := by
    rw [List.getD_eq_getElem frame 0 hi]
    exact h _ (List.getElem_mem hi)
  rw [hv]
  norm_num

/-- Witness for C7: frame [128, 128, 128], width 1000, height 400,
index 1. -/
theorem waveform_flat_centerline_witness :
    (∀ v ∈ ([128, 128, 128] : List ℕ), v = 128) ∧
    (drawWaveformPoints 1000 400 [128, 128, 128]).getD 1 (0, 0)
      = (((1 : ℕ) : ℚ) * ((1000 : ℚ) / ((([128, 128, 128] : List ℕ).length : ℕ) : ℚ)),
         (400 : ℚ) / 2) :=
  ⟨by decide, waveform_flat_centerline [128, 128, 128] 1000 400 (by decide) 1 (by decide)⟩

end Visualizer
